import Mathlib

/-!
Verification of the geometric image-analysis pipeline of `jons-mcp-playwright`:
the marker locator (`src/locate/locate.py`) and the accessibility-tree
validator / ref assigner / annotation renderer (`src/screenshot_snapshot.py`).

The Python code is shallowly embedded: dictionaries become structures or
inductives, in-place mutation becomes explicit state passing, and the external
image/vision library calls (Gemini, OpenCV contour extraction, font metrics)
are parameters of the embedded functions.  Machine floats of the source are
modelled by exact rationals.
-/

namespace Playwright

/-! ### Data model: element trees (`screenshot_snapshot.py`)

A node of the accessibility tree.  In the source a node is a JSON dictionary
with keys `role`, `name`, `bounding_box`, optionally `children`, and (after
`assign_refs`) `ref`.  A missing `children` key is modelled by `[]` and a
missing `ref` key by `none`. -/
inductive Element where
  | mk (role : String) (name : String) (bounding_box : List Int)
      (children : List Element) (ref : Option String)

def Element.role : Element → String
  | .mk r _ _ _ _ => r

def Element.name : Element → String
  | .mk _ n _ _ _ => n

def Element.bounding_box : Element → List Int
  | .mk _ _ b _ _ => b

def Element.children : Element → List Element
  | .mk _ _ _ c _ => c

def Element.ref : Element → Option String
  | .mk _ _ _ _ r => r

/-- The fixed closed role vocabulary `ARIA_ROLES` (51 roles). -/
def ARIA_ROLES : List String :=
  [ "button", "link", "checkbox", "radio", "switch", "slider",
    "textbox", "combobox", "listbox", "option", "menu", "menuitem",
    "menubar", "tab", "tablist", "tabpanel", "progressbar", "scrollbar",
    "spinbutton", "tree", "treeitem",
    "img", "heading", "label", "paragraph", "code", "list", "listitem",
    "table", "row", "cell", "columnheader", "rowheader", "grid", "gridcell",
    "separator", "figure", "group", "generic",
    "dialog", "alertdialog", "toolbar", "navigation", "form", "region",
    "banner", "main", "search",
    "alert", "status", "tooltip" ]

/-- A validation warning appended to the `errors` list by `validate_element`.
Each constructor corresponds to one of the three f-strings of the source and
carries the interpolated values. -/
inductive Warning where
  | invalidLength (path : String)
  | invalidDims (path : String) (y_min y_max x_min x_max : Int)
  | invalidRole (path : String) (role : String)
deriving DecidableEq

/-- Whether a warning is a geometry-order warning
(`invalid bbox dimensions ...`). -/
def Warning.isOrder : Warning → Bool
  | .invalidDims _ _ _ _ _ => true
  | _ => false

mutual

/-- Embedding of `validate_element(el, width, height, errors, path)`: validate and clamp
bounding boxes.  The in-place mutation of `el` and the accumulating `errors`
list become a returned pair (updated element, appended warnings). -/
def validateElement (w h : Int) (el : Element) (path : String) :
    Element × List Warning :=
  match el with
  | .mk role name bbox children ref =>
    match bbox with
    | [y_min, x_min, y_max, x_max] =>
      let orderW : List Warning :=
        if y_min > y_max ∨ x_min > x_max then
          [.invalidDims path y_min y_max x_min x_max]
        else []
      let bbox' : List Int :=
        [ max 0 (min h y_min), max 0 (min w x_min),
          max 0 (min h y_max), max 0 (min w x_max) ]
      let roleW : List Warning :=
        if role ∈ ARIA_ROLES then [] else [.invalidRole path role]
      let cw := validateChildren w h children path 0
      (.mk role name bbox' cw.1 ref, orderW ++ roleW ++ cw.2)
    | _ => (el, [.invalidLength path])

/-- The `for i, child in enumerate(el.get('children', []))` loop of
`validate_element`, recursing with path `f"{path}.children[{i}]"`. -/
def validateChildren (w h : Int) (els : List Element) (path : String)
    (i : Nat) : List Element × List Warning :=
  match els with
  | [] => ([], [])
  | e :: es =>
    let r := validateElement w h e (path ++ ".children[" ++ Nat.repr i ++ "]")
    let rs := validateChildren w h es path (i + 1)
    (r.1 :: rs.1, r.2 ++ rs.2)

end

/-- The validation loop of `main`:
`for i, el in enumerate(tree.get('elements', [])): validate_element(el, width,
height, errors, f"elements[{i}]")`. -/
def validateForestAux (w h : Int) (els : List Element) (i : Nat) :
    List Element × List Warning :=
  match els with
  | [] => ([], [])
  | e :: es =>
    let r := validateElement w h e ("elements[" ++ Nat.repr i ++ "]")
    let rs := validateForestAux w h es (i + 1)
    (r.1 :: rs.1, r.2 ++ rs.2)

def validateForest (els : List Element) (w h : Int) :
    List Element × List Warning :=
  validateForestAux w h els 0

/-! ### `assign_refs` -/

mutual

/-- One step of the `for el in elements` loop of `assign_refs`:
`el['ref'] = f"v{counter['value']}"; counter['value'] += 1;
if 'children' in el: assign_refs(el['children'], counter)`.
The shared mutable counter dictionary is threaded explicitly. -/
def assignRefsEl (el : Element) (n : Nat) : Element × Nat :=
  match el with
  | .mk role name bbox children _ =>
    let c := assignRefsList children (n + 1)
    (.mk role name bbox c.1 (some ("v" ++ Nat.repr n)), c.2)

/-- Embedding of `assign_refs(elements, counter)`. -/
def assignRefsList (els : List Element) (n : Nat) : List Element × Nat :=
  match els with
  | [] => ([], n)
  | e :: es =>
    let r := assignRefsEl e n
    let rs := assignRefsList es r.2
    (r.1 :: rs.1, rs.2)

end

/-- Top-level `assign_refs(elements)`: the default counter starts at 1. -/
def assign_refs (els : List Element) : List Element :=
  (assignRefsList els 1).1

/-! ### The renderer (`draw_annotations`) -/

mutual

/-- The `flatten` helper of `draw_annotations`: depth-first pre-order. -/
def flattenEl (el : Element) : List Element :=
  match el with
  | .mk role name bbox children ref =>
    .mk role name bbox children ref :: flattenList children

def flattenList (els : List Element) : List Element :=
  match els with
  | [] => []
  | e :: es => flattenEl e ++ flattenList es

end

/-- An RGB color triple. -/
structure RGB where
  r : Int
  g : Int
  b : Int
deriving DecidableEq

/-- The Okabe-Ito colorblind-friendly palette `OKABE_ITO_COLORS`. -/
def OKABE_ITO_COLORS : List RGB :=
  [ ⟨230, 159, 0⟩, ⟨86, 180, 233⟩, ⟨0, 158, 115⟩, ⟨240, 228, 66⟩,
    ⟨0, 114, 178⟩, ⟨213, 94, 0⟩, ⟨204, 121, 167⟩ ]

/-- The color `OKABE_ITO_COLORS[i % len(OKABE_ITO_COLORS)]` assigned to the
node at index `i` of the flattened list. -/
def colorOf (i : Nat) : RGB :=
  OKABE_ITO_COLORS.getD (i % OKABE_ITO_COLORS.length) ⟨0, 0, 0⟩

/-- The luminance `0.299 * color[0] + 0.587 * color[1] + 0.114 * color[2]`,
modelled exactly over the rationals. -/
def luminance (c : RGB) : ℚ :=
  (299 / 1000 : ℚ) * c.r + (587 / 1000 : ℚ) * c.g + (114 / 1000 : ℚ) * c.b

/-- The text color: `(0, 0, 0) if luminance > 128 else (255, 255, 255)`. -/
def textColor (c : RGB) : RGB :=
  if luminance c > 128 then ⟨0, 0, 0⟩ else ⟨255, 255, 255⟩

/-- Label anchor position (`label_x`, `label_y`) as computed by
`draw_annotations`: anchored at the box's top-left corner plus a 2px margin,
then shifted left/up when `label_x + text_width + 4 > img.width` (resp.
`label_y + text_height + 4 > img.height`). -/
def labelPos (imgW imgH tw th x_min y_min : Int) : Int × Int :=
  let lx := x_min + 2
  let ly := y_min + 2
  let lx' := if lx + tw + 4 > imgW then imgW - tw - 4 else lx
  let ly' := if ly + th + 4 > imgH then imgH - th - 4 else ly
  (lx', ly')

/-- An abstract drawing command issued by `draw_annotations`; the PIL calls
`draw_overlay.rectangle`, `draw.rectangle(outline=...)`,
`draw.rectangle(fill=...)` and `draw.text` become the four constructors. -/
inductive DrawCmd where
  | fillRect (x0 y0 x1 y1 : Int) (c : RGB) (alpha : Nat)
  | borderRect (x0 y0 x1 y1 : Int) (c : RGB) (widthPx : Nat)
  | labelBg (x0 y0 x1 y1 : Int) (c : RGB)
  | text (x y : Int) (s : String) (c : RGB)
deriving DecidableEq

/-- The body of the `for i, el in enumerate(flat_elements)` loop of
`draw_annotations` for a single element.  `tb` models
`draw.textbbox((0, 0), label, font)` (an external font-metric call) returning
`(left, top, right, bottom)`; the node is skipped silently when its bounding
box does not have exactly 4 components. -/
def drawElement (imgW imgH : Int) (tb : String → Int × Int × Int × Int)
    (i : Nat) (el : Element) : List DrawCmd :=
  let bbox := el.bounding_box
  let ref := el.ref.getD ("v" ++ Nat.repr (i + 1))
  match bbox with
  | [y_min, x_min, y_max, x_max] =>
    let color := colorOf i
    let m := tb ref
    let text_width := m.2.2.1 - m.1
    let text_height := m.2.2.2 - m.2.1
    let p := labelPos imgW imgH text_width text_height x_min y_min
    let padding : Int := 2
    [ .fillRect x_min y_min x_max y_max color 40,
      .borderRect x_min y_min x_max y_max color 2,
      .labelBg (p.1 - padding) (p.2 - padding)
        (p.1 + text_width + padding) (p.2 + text_height + padding) color,
      .text p.1 p.2 ref (textColor color) ]
  | _ => []

/-- `draw_annotations`: flatten the forest, then draw each element in order. -/
def drawAnnotations (imgW imgH : Int) (tb : String → Int × Int × Int × Int)
    (els : List Element) : List DrawCmd :=
  ((flattenList els).enum.map (fun p => drawElement imgW imgH tb p.1 p.2)).flatten

/-! ### Marker locator (`locate.py`)

The stages up to contour extraction (Gemini call, HSV conversion,
`cv2.inRange`, morphology, `cv2.findContours`) are external library calls; the
embedding starts from the extracted contour list, each contour carrying its
`cv2.contourArea` and its spatial moments `m00`, `m10`, `m01`. -/

structure Contour where
  area : ℚ
  m00 : ℚ
  m10 : ℚ
  m01 : ℚ

/-- The result dictionary returned by `locate`; absent keys are `none`. -/
structure LocResult where
  detected : Bool
  error : Option String
  x : Option Int
  y : Option Int
  input_width : Option Int
  input_height : Option Int
  annotated_image : Option String

/-- Python's `round` on a (real-valued) float: round to nearest, ties to
even. -/
def pyRound (q : ℚ) : Int :=
  let n := ⌊q⌋
  if q - n < 1 / 2 then n
  else if 1 / 2 < q - n then n + 1
  else if 2 ∣ n then n else n + 1

/-- Selection `max(contours, key=cv2.contourArea)` guarded by `if not contours`:
Python's `max` keeps the first element whose key is strictly greater than the
current maximum, so ties go to the earlier contour; `none` corresponds to the
empty-list guard. -/
def pyMaxByArea : List Contour → Option Contour
  | [] => none
  | c :: cs => some (cs.foldl (fun best x => if x.area > best.area then x else best) c)

/-- Embedding of `locate` from the contour stage on: failure dictionaries for
an empty contour list and for a zero zeroth moment, otherwise the centroid
`(m10/m00, m01/m00)` normalized by the annotated (output) image's dimensions,
rescaled by the input image's dimensions, and rounded. -/
def locateDetect (contours : List Contour) (output_width output_height : ℚ)
    (input_width input_height : Int) (annotated_path : String) : LocResult :=
  match pyMaxByArea contours with
  | none =>
    ⟨false, some "No marker detected", none, none, none, none,
      some annotated_path⟩
  | some largest =>
    if largest.m00 = 0 then
      ⟨false, some "Invalid marker shape", none, none, none, none,
        some annotated_path⟩
    else
      let cx_output := largest.m10 / largest.m00
      let cy_output := largest.m01 / largest.m00
      let norm_x := cx_output / output_width
      let norm_y := cy_output / output_height
      ⟨true, none,
        some (pyRound (norm_x * input_width)),
        some (pyRound (norm_y * input_height)),
        some input_width, some input_height, some annotated_path⟩

/-- The exit status `sys.exit(0 if result["detected"] else 1)` of `locate.py`'s `main`. -/
def locateExit (r : LocResult) : Nat :=
  if r.detected then 0 else 1

/-! ### `screenshot_snapshot.py`'s `main` -/

/-- Lowercasing followed by a substring test (`"quota" in error_str`). -/
def strContains (s pat : String) : Bool :=
  decide (List.IsInfix pat.toList s.toLower.toList)

/-- The keyword-matching `error_code` classification of the final `except`
block of `main`. -/
def classifyError (msg : String) : String :=
  if strContains msg "quota" then "quota_exceeded"
  else if strContains msg "rate" then "rate_limited"
  else if strContains msg "auth" || strContains msg "api key" then "auth_error"
  else if strContains msg "timeout" then "timeout"
  else "unknown"

/-- The upstream outcome `main` reacts to: missing credential, missing file,
a JSON decode failure of the model response, any other exception, or a
successfully parsed element forest. -/
inductive Upstream where
  | missingKey
  | missingFile (path : String)
  | badJson (msg : String)
  | exn (msg : String)
  | ok (elements : List Element)

/-- The success payload printed by `main`: `width`, `height`, `model`,
`elements`, optional `validation_warnings` (present only if non-empty) and
optional `annotated_image`. -/
structure SnapResult where
  width : Int
  height : Int
  model : String
  elements : List Element
  validation_warnings : Option (List Warning)
  annotated_image : Option String

/-- Embedding of `main` of `screenshot_snapshot.py` after argument parsing: returns the
process exit status, the success payload (if any) and the error envelope
`(error, error_code)` (if any).  On the success path the tree is validated
(clamping in place), refs are assigned, warnings are attached only when
non-empty, and the exit status is 0. -/
def snapshotMain (u : Upstream) (w h : Int) (model : String)
    (annotate : Bool) (annotatedPath : String) :
    Nat × Option SnapResult × Option (String × String) :=
  match u with
  | .missingKey =>
    (1, none, some ("GEMINI_API_KEY environment variable not set", "auth_missing"))
  | .missingFile p =>
    (1, none, some ("Image not found: " ++ p, "file_not_found"))
  | .badJson m =>
    (1, none, some ("Invalid JSON from Gemini: " ++ m, "schema_error"))
  | .exn m =>
    (1, none, some (m, classifyError m))
  | .ok els =>
    let v := validateForest els w h
    let els' := assign_refs v.1
    (0,
      some ⟨w, h, model, els',
        if v.2 = [] then none else some v.2,
        if annotate then some annotatedPath else none⟩,
      none)

/-! ### Derived notions used by the statements -/

/-- The refs of a forest collected in depth-first pre-order. -/
def refsList (els : List Element) : List (Option String) :=
  (flattenList els).map Element.ref

/-- Most-significant-first decimal digit characters of `n`; this is the list
that `Nat.toDigitsCore` accumulates, used to reason about `Nat.repr`. -/
def msdigs (n : Nat) : List Char :=
  if _h : n < 10 then [Nat.digitChar n]
  else msdigs (n / 10) ++ [Nat.digitChar (n % 10)]
termination_by n
decreasing_by exact Nat.div_lt_self (by omega) (by norm_num)

/-- The numeric value of a decimal digit character. -/
def digVal (c : Char) : Nat := c.toNat - 48

/-- The numeric value of a most-significant-first decimal digit string. -/
def digsVal (l : List Char) : Nat := l.foldl (fun a c => a * 10 + digVal c) 0

/-! ### Concrete fixtures used by witnesses and counterexamples -/

/-- A node whose bounding box is order-inverted even after clamping to a
100x100 image (the example of the spec's testable properties). -/
def elOrderBad : Element := .mk "button" "submit" [500, 10, 10, 500] [] none

/-- A node with a 3-component bounding box and a child that itself has a
5-component bounding box. -/
def elShortBox : Element :=
  .mk "button" "submit" [1, 2, 3] [.mk "generic" "dot" [9, 9, 1, 1, 0] [] none] none

/-- A well-formed two-root forest with five nodes in total. -/
def forestGood : List Element :=
  [ .mk "img" "chart" [0, 0, 5, 5]
      [ .mk "group" "axis" [0, 0, 1, 1] [] none,
        .mk "label" "title" [1, 1, 2, 2] [] none ] none,
    .mk "button" "ok" [2, 2, 3, 3] [] none ]

/-- A node with a valid clamped box near the origin of a small image. -/
def elSmallBox : Element := .mk "button" "b" [0, 0, 5, 5] [] (some "v1")

/-- A font-metric stub whose rendered text is 20px wide and 5px tall. -/
def tbWide : String → Int × Int × Int × Int := fun _ => (0, 0, 20, 5)

/-- A font-metric stub whose rendered text is 10px wide and 5px tall. -/
def tbSmall : String → Int × Int × Int × Int := fun _ => (0, 0, 10, 5)

/-- A degenerate contour with zero zeroth moment. -/
def cZero : Contour := ⟨0, 0, 0, 0⟩

/-- A contour of area 4 with centroid (3, 2). -/
def cBig : Contour := ⟨4, 2, 6, 4⟩

/-! ## Theorems

First, a mutual induction principle for the nested tree type. -/

mutual

theorem elemRec {P : Element → Prop} {Q : List Element → Prop}
    (hmk : ∀ r n b c ref, Q c → P (.mk r n b c ref))
    (hnil : Q []) (hcons : ∀ e es, P e → Q es → Q (e :: es)) :
    ∀ e : Element, P e
  | .mk r n b c ref => hmk r n b c ref (listRec hmk hnil hcons c)

theorem listRec {P : Element → Prop} {Q : List Element → Prop}
    (hmk : ∀ r n b c ref, Q c → P (.mk r n b c ref))
    (hnil : Q []) (hcons : ∀ e es, P e → Q es → Q (e :: es)) :
    ∀ es : List Element, Q es
  | [] => hnil
  | e :: es => hcons e es (elemRec hmk hnil hcons e) (listRec hmk hnil hcons es)

end

/-- C4: for a node whose bounding box has exactly 4 components, validation
clamps each y-component into `[0, height]` and each x-component into
`[0, width]` unconditionally; the ordering check only records a warning
(recorded exactly when `y_min > y_max` or `x_min > x_max`), and the clamped
box is produced even then. -/
theorem claim_C4_unconditional_clamp (w h y0 x0 y1 x1 : Int)
    (role name : String) (children : List Element) (ref : Option String)
    (path : String) (hw : 0 ≤ w) (hh : 0 ≤ h) :
    (validateElement w h (.mk role name [y0, x0, y1, x1] children ref)
        path).1.bounding_box =
      [max 0 (min h y0), max 0 (min w x0), max 0 (min h y1), max 0 (min w x1)] ∧
    (∀ v ∈ [max 0 (min h y0), max 0 (min h y1)], 0 ≤ v ∧ v ≤ h) ∧
    (∀ v ∈ [max 0 (min w x0), max 0 (min w x1)], 0 ≤ v ∧ v ≤ w) ∧
    ((y0 > y1 ∨ x0 > x1) →
      Warning.invalidDims path y0 y1 x0 x1 ∈
        (validateElement w h (.mk role name [y0, x0, y1, x1] children ref)
          path).2) := by
  refine ⟨?_, ?_, ?_, ?_⟩
  · simp [validateElement, Element.bounding_box]
  · intro v hv
    simp only [List.mem_cons, List.not_mem_nil, or_false] at hv
    rcases hv with rfl | rfl <;> omega
  · intro v hv
    simp only [List.mem_cons, List.not_mem_nil, or_false] at hv
    rcases hv with rfl | rfl <;> omega
  · intro hord
    simp [validateElement, hord]

/-- Witness for C4: the spec's own example, `(y_min=500, x_min=10, y_max=10,
x_max=500)` against a 100x100 image, yields the geometry-order warning and
the in-bounds clamped box `[100, 10, 10, 100]`. -/
theorem claim_C4_witness :
    (validateElement 100 100 (.mk "button" "submit" [500, 10, 10, 500] [] none)
        "elements[0]").1.bounding_box = [100, 10, 10, 100] ∧
    Warning.invalidDims "elements[0]" 500 10 10 500 ∈
      (validateElement 100 100
        (.mk "button" "submit" [500, 10, 10, 500] [] none) "elements[0]").2 := by
  have h := claim_C4_unconditional_clamp 100 100 500 10 10 500 "button" "submit"
    [] none "elements[0]" (by norm_num) (by norm_num)
  exact ⟨by rw [h.1]; decide, h.2.2.2 (by norm_num)⟩

/-- C5: for a node whose bounding box does not have exactly 4 components,
validation records exactly one warning (the invalid-length warning for that
node), does not recurse into its children, and the node is returned as is. -/
theorem claim_C5_malformed_no_recursion (w h : Int) (el : Element)
    (path : String) (hlen : el.bounding_box.length ≠ 4) :
    validateElement w h el path = (el, [Warning.invalidLength path]) := by
  rcases el with ⟨role, name, bbox, children, ref⟩
  rcases bbox with _ | ⟨a, _ | ⟨b, _ | ⟨c, _ | ⟨d, _ | ⟨e, t⟩⟩⟩⟩⟩ <;>
    simp_all [validateElement, Element.bounding_box]

/-- Witness for C5: a 3-component box with a (5-component, itself malformed)
child produces exactly the one warning for the parent and none for the
child. -/
theorem claim_C5_witness :
    validateElement 100 100 elShortBox "elements[0]" =
      (elShortBox, [Warning.invalidLength "elements[0]"]) :=
  claim_C5_malformed_no_recursion 100 100 elShortBox "elements[0]" (by decide)

/-- C10: a node whose bounding box does not have exactly 4 components is left
entirely unmodified by validation (its malformed `bounding_box`, its other
fields and all its descendants are unchanged), and the renderer emits no
drawing command at all for such a node. -/
theorem claim_C10_malformed_untouched_and_skipped (w h : Int) (el : Element)
    (path : String) (imgW imgH : Int) (tb : String → Int × Int × Int × Int)
    (i : Nat) (hlen : el.bounding_box.length ≠ 4) :
    (validateElement w h el path).1 = el ∧ drawElement imgW imgH tb i el = [] := by
  rcases el with ⟨role, name, bbox, children, ref⟩
  rcases bbox with _ | ⟨a, _ | ⟨b, _ | ⟨c, _ | ⟨d, _ | ⟨e, t⟩⟩⟩⟩⟩ <;>
    simp_all [validateElement, drawElement, Element.bounding_box]

/-- Witness for C10 at the 3-component fixture. -/
theorem claim_C10_witness :
    (validateElement 100 100 elShortBox "elements[0]").1 = elShortBox ∧
    drawElement 640 480 tbWide 3 elShortBox = [] :=
  claim_C10_malformed_untouched_and_skipped 100 100 elShortBox "elements[0]"
    640 480 tbWide 3 (by decide)

/-- C9: for every node index, the label text over the assigned palette color
is black exactly when the color's perceptual luminance
`0.299*R + 0.587*G + 0.114*B` exceeds the midpoint `255/2` of the 0-255
range, and white otherwise.  (The source compares with `> 128`; on the seven
palette colors that threshold agrees with the midpoint `127.5`.) -/
theorem claim_C9_label_text_contrast (i : Nat) :
    (textColor (colorOf i) = ⟨0, 0, 0⟩ ↔ luminance (colorOf i) > 255 / 2) ∧
    (textColor (colorOf i) = ⟨255, 255, 255⟩ ↔
      ¬ luminance (colorOf i) > 255 / 2) := by
  have h : i % OKABE_ITO_COLORS.length = 0 ∨ i % OKABE_ITO_COLORS.length = 1 ∨
      i % OKABE_ITO_COLORS.length = 2 ∨ i % OKABE_ITO_COLORS.length = 3 ∨
      i % OKABE_ITO_COLORS.length = 4 ∨ i % OKABE_ITO_COLORS.length = 5 ∨
      i % OKABE_ITO_COLORS.length = 6 := by
    rw [show OKABE_ITO_COLORS.length = 7 from rfl]
    omega
  unfold colorOf
  rcases h with h | h | h | h | h | h | h <;> rw [h] <;>
    norm_num [textColor, luminance, OKABE_ITO_COLORS, List.getD_cons_zero,
      List.getD_cons_succ, RGB.mk.injEq]

/-- C1: for every detected marker, the reported location is the centroid
`(m10/m00, m01/m00)` of the largest contour, normalized to a 0-1 fraction of
the annotated (output) image's dimensions, rescaled by the original (input)
image's dimensions, and rounded to the nearest integer. -/
theorem claim_C1_centroid_remap (contours : List Contour)
    (ow oh : ℚ) (iw ih : Int) (p : String) (c : Contour)
    (hmax : pyMaxByArea contours = some c) (hm : c.m00 ≠ 0) :
    (locateDetect contours ow oh iw ih p).x =
      some (pyRound (c.m10 / c.m00 / ow * iw)) ∧
    (locateDetect contours ow oh iw ih p).y =
      some (pyRound (c.m01 / c.m00 / oh * ih)) := by
  unfold locateDetect
  rw [hmax]
  simp [hm]

/-- Witness for C1: a contour with moments `m00 = 2`, `m10 = 6`, `m01 = 4`
(centroid `(3, 2)`) on a 10x10 annotated image of a 20x20 original reports
`(x, y) = (6, 4)`. -/
theorem claim_C1_witness :
    (locateDetect [cBig] 10 10 20 20 "shot_annotated.png").x = some 6 ∧
    (locateDetect [cBig] 10 10 20 20 "shot_annotated.png").y = some 4 := by
  have h := claim_C1_centroid_remap [cBig] 10 10 20 20 "shot_annotated.png"
    cBig rfl (by norm_num [cBig])
  refine ⟨h.1.trans ?_, h.2.trans ?_⟩ <;>
    norm_num [cBig, pyRound]

/-- C6: an empty contour list (no magenta pixels survive thresholding and
morphology) yields `{detected: false, error: "No marker detected",
annotated_image: path}` and exit status 1; a largest contour with zero zeroth
moment yields `{detected: false, error: "Invalid marker shape",
annotated_image: path}` and exit status 1. -/
theorem claim_C6_detection_failures (ow oh : ℚ) (iw ih : Int) (p : String) :
    (locateDetect [] ow oh iw ih p =
        ⟨false, some "No marker detected", none, none, none, none, some p⟩ ∧
      locateExit (locateDetect [] ow oh iw ih p) = 1) ∧
    (∀ contours c, pyMaxByArea contours = some c → c.m00 = 0 →
      locateDetect contours ow oh iw ih p =
          ⟨false, some "Invalid marker shape", none, none, none, none, some p⟩ ∧
        locateExit (locateDetect contours ow oh iw ih p) = 1) := by
  refine ⟨⟨rfl, rfl⟩, ?_⟩
  intro contours c hmax hm
  unfold locateDetect
  rw [hmax]
  simp [hm, locateExit]

/-- Witness for C6 at a degenerate single contour with zero area and zero
moments. -/
theorem claim_C6_witness :
    locateDetect [cZero] 10 10 20 20 "shot_annotated.png" =
        ⟨false, some "Invalid marker shape", none, none, none, none,
          some "shot_annotated.png"⟩ ∧
      locateExit (locateDetect [cZero] 10 10 20 20 "shot_annotated.png") = 1 :=
  (claim_C6_detection_failures 10 10 20 20 "shot_annotated.png").2
    [cZero] cZero rfl rfl

/-- C7: the exit status is 0 exactly when the operation succeeds (a result
payload is produced), and 1 on detection failure or fatal error.  On the tree
path validation never fails: a run whose validation produces a non-empty
warnings list still succeeds — the warnings are attached to the result and the
exit status is 0, matching the spec's classification of geometric errors as
non-fatal for the tree path. -/
theorem claim_C7_exit_status_convention (u : Upstream) (w h : Int)
    (model : String) (annotate : Bool) (p : String) :
    ((snapshotMain u w h model annotate p).1 = 0 ↔
      (snapshotMain u w h model annotate p).2.1.isSome) ∧
    (∀ r : LocResult, locateExit r = 0 ↔ r.detected = true) ∧
    (∀ els, (validateForest els w h).2 ≠ [] →
      (snapshotMain (.ok els) w h model annotate p).1 = 0 ∧
      (snapshotMain (.ok els) w h model annotate p).2.1 =
        some ⟨w, h, model, assign_refs (validateForest els w h).1,
          some (validateForest els w h).2,
          if annotate then some p else none⟩) := by
  refine ⟨?_, ?_, ?_⟩
  · cases u <;> simp [snapshotMain]
  · intro r
    unfold locateExit
    cases hr : r.detected <;> simp
  · intro els hne
    simp [snapshotMain, hne]

/-- Witness for C7: the order-inverted fixture produces one validation
warning, and the tree path still exits 0 with the warning attached to the
result. -/
theorem claim_C7_witness :
    (validateForest [elOrderBad] 100 100).2 ≠ [] ∧
    (snapshotMain (.ok [elOrderBad]) 100 100 "gemini-2.0-flash-exp" false
      "shot_annotated.png").1 = 0 :=
  ⟨by decide,
    ((claim_C7_exit_status_convention (.ok [elOrderBad]) 100 100
      "gemini-2.0-flash-exp" false "shot_annotated.png").2.2 [elOrderBad]
      (by decide)).1⟩

/-! ### Injectivity of `Nat.repr`, needed for uniqueness of refs -/

theorem toDigitsCore_eq_msdigs (f : Nat) :
    ∀ n l, n < f → Nat.toDigitsCore 10 f n l = msdigs n ++ l := by
  induction f with
  | zero => intro n l hn; omega
  | succ f ih =>
    intro n l hn
    by_cases h10 : n < 10
    · have hdiv : n / 10 = 0 := Nat.div_eq_of_lt h10
      have hmod : n % 10 = n := Nat.mod_eq_of_lt h10
      rw [msdigs]
      simp [Nat.toDigitsCore, hdiv, hmod, h10]
    · have hdiv : ¬ n / 10 = 0 := by
        intro h0
        exact h10 ((Nat.div_eq_zero_iff (by norm_num)).1 h0)
      have hlt : n / 10 < f := by
        have h1 : n / 10 < n := Nat.div_lt_self (by omega) (by norm_num)
        omega
      rw [msdigs]
      simp only [Nat.toDigitsCore, hdiv, if_false, h10, dif_neg, not_false_iff]
      rw [ih (n / 10) (Nat.digitChar (n % 10) :: l) hlt]
      simp

theorem digVal_digitChar (m : Nat) (hm : m < 10) :
    digVal (Nat.digitChar m) = m := by
  interval_cases m <;> decide

theorem msdigs_foldl (n : Nat) :
    ∀ a, (msdigs n).foldl (fun x c => x * 10 + digVal c) a =
      a * 10 ^ (msdigs n).length + n := by
  induction n using Nat.strong_induction_on with
  | _ n ih =>
    intro a
    by_cases h10 : n < 10
    · rw [msdigs]
      simp [h10, digVal_digitChar n h10]
    · have h1 : n / 10 < n := Nat.div_lt_self (by omega) (by norm_num)
      rw [msdigs]
      simp only [h10, dif_neg, not_false_iff, List.foldl_append, List.foldl_cons,
        List.foldl_nil, List.length_append, List.length_cons, List.length_nil]
      rw [ih (n / 10) h1 a, digVal_digitChar (n % 10) (Nat.mod_lt n (by norm_num))]
      have hdm : 10 * (n / 10) + n % 10 = n := Nat.div_add_mod n 10
      ring_nf
      omega

theorem digsVal_msdigs (n : Nat) : digsVal (msdigs n) = n := by
  have h := msdigs_foldl n 0
  simpa [digsVal] using h

theorem msdigs_injective : Function.Injective msdigs := by
  intro a b hab
  have ha := digsVal_msdigs a
  rw [hab, digsVal_msdigs b] at ha
  exact ha.symm

theorem natRepr_eq_msdigs (n : Nat) : Nat.repr n = (msdigs n).asString := by
  rw [Nat.repr, Nat.toDigits, toDigitsCore_eq_msdigs (n + 1) n [] (Nat.lt_succ_self n)]
  simp

theorem natRepr_injective : Function.Injective Nat.repr := by
  intro a b hab
  rw [natRepr_eq_msdigs, natRepr_eq_msdigs] at hab
  have hd := congrArg String.data hab
  simp [List.asString] at hd
  exact msdigs_injective hd

theorem vRef_injective :
    Function.Injective (fun k : Nat => some ("v" ++ Nat.repr (1 + k))) := by
  intro a b hab
  simp only [Option.some.injEq] at hab
  have hd := congrArg String.data hab
  simp only [String.data_append] at hd
  have hcancel := List.append_cancel_left hd
  have := natRepr_injective (String.ext hcancel)
  omega

/-- Counter threading of `assign_refs`: processing a forest from counter `n`
assigns, in depth-first pre-order, exactly the refs `v(n), v(n+1), ...`, one
per node, and leaves the counter at `n` plus the total node count. -/
theorem assignRefs_spec :
    ∀ els : List Element, ∀ n : Nat,
      (flattenList (assignRefsList els n).1).map Element.ref =
        (List.range (flattenList els).length).map
          (fun k => some ("v" ++ Nat.repr (n + k))) ∧
      (assignRefsList els n).2 = n + (flattenList els).length := by
  refine listRec (P := fun e => ∀ n : Nat,
      (flattenEl (assignRefsEl e n).1).map Element.ref =
        (List.range (flattenEl e).length).map
          (fun k => some ("v" ++ Nat.repr (n + k))) ∧
      (assignRefsEl e n).2 = n + (flattenEl e).length)
    (Q := fun es => ∀ n : Nat,
      (flattenList (assignRefsList es n).1).map Element.ref =
        (List.range (flattenList es).length).map
          (fun k => some ("v" ++ Nat.repr (n + k))) ∧
      (assignRefsList es n).2 = n + (flattenList es).length) ?_ ?_ ?_
  · intro r nm b c ref ih n
    have hc := ih (n + 1)
    constructor
    · simp only [assignRefsEl, flattenEl, List.map_cons, Element.ref,
        List.length_cons]
      rw [hc.1]
      rw [show (flattenList c).length + 1 = 1 + (flattenList c).length from by
        omega, List.range_add, List.map_append, List.map_map]
      rw [show List.range 1 = [0] from rfl]
      simp only [List.map_cons, List.map_nil, Nat.add_zero,
        List.singleton_append, Function.comp]
      refine congrArg₂ _ rfl ?_
      apply List.map_congr_left
      intro a _
      have : n + 1 + a = n + (1 + a) := by omega
      rw [this]
      rfl
    · simp only [assignRefsEl, flattenEl, List.length_cons]
      rw [hc.2]
      omega
  · intro n
    simp [assignRefsList, flattenList]
  · intro e es ihe ihes n
    have he := ihe n
    have hes := ihes (assignRefsEl e n).2
    constructor
    · simp only [assignRefsList, flattenList, List.map_append]
      rw [he.1, hes.1, he.2]
      rw [List.length_append, List.range_add, List.map_append, List.map_map]
      refine congrArg₂ _ rfl ?_
      apply List.map_congr_left
      intro a _
      simp only [Function.comp]
      have : n + (flattenEl e).length + a = n + ((flattenEl e).length + a) := by
        omega
      rw [this]
    · simp only [assignRefsList, flattenList, List.length_append]
      rw [hes.2, he.2]
      omega

/-- Re-running `assign_refs` from the same counter overwrites every ref with
the identical value and changes nothing else. -/
theorem assignRefs_overwrite :
    ∀ els : List Element, ∀ n : Nat,
      assignRefsList (assignRefsList els n).1 n = assignRefsList els n := by
  refine listRec
    (P := fun e => ∀ n : Nat,
      assignRefsEl (assignRefsEl e n).1 n = assignRefsEl e n)
    (Q := fun es => ∀ n : Nat,
      assignRefsList (assignRefsList es n).1 n = assignRefsList es n) ?_ ?_ ?_
  · intro r nm b c ref ih n
    simp only [assignRefsEl]
    rw [ih (n + 1)]
  · intro n
    rfl
  · intro e es ihe ihes n
    simp only [assignRefsList]
    rw [ihe n, ihes (assignRefsEl e n).2]

/-- C3: for a forest with `N` total nodes, `assign_refs` assigns, in
depth-first pre-order with a counter shared across all roots starting at 1,
exactly the refs `v1, ..., vN` (as a list equality, so the k-th node in
pre-order gets `v(k+1)`), these refs have no duplicates, and re-running
`assign_refs` on the resulting forest reproduces it identically. -/
theorem claim_C3_ref_assignment (els : List Element) :
    refsList (assign_refs els) =
      (List.range (flattenList els).length).map
        (fun k => some ("v" ++ Nat.repr (1 + k))) ∧
    (refsList (assign_refs els)).Nodup ∧
    assign_refs (assign_refs els) = assign_refs els := by
  have h := assignRefs_spec els 1
  refine ⟨?_, ?_, ?_⟩
  · simpa [refsList, assign_refs] using h.1
  · have h1 : refsList (assign_refs els) =
        (List.range (flattenList els).length).map
          (fun k => some ("v" ++ Nat.repr (1 + k))) := by
      simpa [refsList, assign_refs] using h.1
    rw [h1]
    exact (List.nodup_range _).map vRef_injective
  · unfold assign_refs
    rw [assignRefs_overwrite els 1]

/-! ### Idempotence of validation (C2) -/

theorem clamp_idem (b v : Int) :
    max 0 (min b (max 0 (min b v))) = max 0 (min b v) := by omega

/-- Validating an already-validated element again (any paths) returns the
element unchanged: the clamping of each coordinate is idempotent and no other
field is touched. -/
theorem validateElement_fix (w h : Int) :
    ∀ e : Element, ∀ p p' : String,
      (validateElement w h (validateElement w h e p).1 p').1 =
        (validateElement w h e p).1 := by
  refine elemRec (P := fun e => ∀ p p' : String,
      (validateElement w h (validateElement w h e p).1 p').1 =
        (validateElement w h e p).1)
    (Q := fun es => ∀ (p p' : String) (i i' : Nat),
      (validateChildren w h (validateChildren w h es p i).1 p' i').1 =
        (validateChildren w h es p i).1) ?_ ?_ ?_
  · intro r nm b c ref ih p p'
    rcases b with _ | ⟨a1, _ | ⟨a2, _ | ⟨a3, _ | ⟨a4, _ | ⟨a5, t⟩⟩⟩⟩⟩ <;>
      simp [validateElement, ih, clamp_idem]
  · intro p p' i i'
    rfl
  · intro e es ihe ihes p p' i i'
    simp [validateChildren, ihe, ihes]

/-- If a first validation run produced no geometry-order warning for an
element, a second run on its output produces none either (clamping preserves
a valid ordering). -/
theorem validateElement_geomfree (w h : Int) :
    ∀ e : Element, ∀ p p' : String,
      (∀ x ∈ (validateElement w h e p).2, x.isOrder = false) →
      ∀ x ∈ (validateElement w h (validateElement w h e p).1 p').2,
        x.isOrder = false := by
  refine elemRec (P := fun e => ∀ p p' : String,
      (∀ x ∈ (validateElement w h e p).2, x.isOrder = false) →
      ∀ x ∈ (validateElement w h (validateElement w h e p).1 p').2,
        x.isOrder = false)
    (Q := fun es => ∀ (p p' : String) (i i' : Nat),
      (∀ x ∈ (validateChildren w h es p i).2, x.isOrder = false) →
      ∀ x ∈ (validateChildren w h (validateChildren w h es p i).1 p' i').2,
        x.isOrder = false) ?_ ?_ ?_
  · intro r nm b c ref ih p p' hfree
    rcases b with _ | ⟨a1, _ | ⟨a2, _ | ⟨a3, _ | ⟨a4, _ | ⟨a5, t⟩⟩⟩⟩⟩ <;>
      try (intro x hx; simp [validateElement, Warning.isOrder] at hx ⊢;
           subst hx; rfl)
    -- 4-component case
    by_cases hord : a1 > a3 ∨ a2 > a4
    · exfalso
      have hmem : Warning.invalidDims p a1 a3 a2 a4 ∈
          (validateElement w h (.mk r nm [a1, a2, a3, a4] c ref) p).2 := by
        simp [validateElement, hord]
      have hcontra := hfree _ hmem
      simp [Warning.isOrder] at hcontra
    · have hchild : ∀ y ∈ (validateChildren w h c p 0).2, y.isOrder = false := by
        intro y hy
        refine hfree y ?_
        simp only [validateElement, List.mem_append]
        exact Or.inr hy
      have hord2 : ¬ (max 0 (min h a1) > max 0 (min h a3) ∨
          max 0 (min w a2) > max 0 (min w a4)) := by omega
      intro x hx
      simp only [validateElement, List.mem_append] at hx
      rcases hx with (hx | hx) | hx
      · rw [if_neg hord2] at hx
        simp at hx
      · by_cases hrole : r ∈ ARIA_ROLES
        · rw [if_pos hrole] at hx
          simp at hx
        · rw [if_neg hrole] at hx
          simp at hx
          subst hx
          rfl
      · exact ih p p' 0 0 hchild x hx
  · intro p p' i i' _ x hx
    simp [validateChildren] at hx
  · intro e es ihe ihes p p' i i' hfree x hx
    have hfe : ∀ y ∈ (validateElement w h e
        (p ++ ".children[" ++ Nat.repr i ++ "]")).2, y.isOrder = false := by
      intro y hy
      refine hfree y ?_
      simp only [validateChildren, List.mem_append]
      exact Or.inl hy
    have hfes : ∀ y ∈ (validateChildren w h es p (i + 1)).2,
        y.isOrder = false := by
      intro y hy
      refine hfree y ?_
      simp only [validateChildren, List.mem_append]
      exact Or.inr hy
    simp only [validateChildren, List.mem_append] at hx
    rcases hx with hx | hx
    · exact ihe _ _ hfe x hx
    · exact ihes _ _ _ _ hfes x hx

theorem validateForestAux_fix (w h : Int) :
    ∀ (els : List Element) (i i' : Nat),
      (validateForestAux w h (validateForestAux w h els i).1 i').1 =
        (validateForestAux w h els i).1 := by
  intro els
  induction els with
  | nil => intro i i'; rfl
  | cons e es ih =>
    intro i i'
    simp [validateForestAux, validateElement_fix, ih]

theorem validateForestAux_geomfree (w h : Int) :
    ∀ (els : List Element) (i i' : Nat),
      (∀ x ∈ (validateForestAux w h els i).2, x.isOrder = false) →
      ∀ x ∈ (validateForestAux w h (validateForestAux w h els i).1 i').2,
        x.isOrder = false := by
  intro els
  induction els with
  | nil =>
    intro i i' _ x hx
    simp [validateForestAux] at hx
  | cons e es ih =>
    intro i i' hfree x hx
    have hfe : ∀ y ∈ (validateElement w h e
        ("elements[" ++ Nat.repr i ++ "]")).2, y.isOrder = false := by
      intro y hy
      refine hfree y ?_
      simp only [validateForestAux, List.mem_append]
      exact Or.inl hy
    have hfes : ∀ y ∈ (validateForestAux w h es (i + 1)).2,
        y.isOrder = false := by
      intro y hy
      refine hfree y ?_
      simp only [validateForestAux, List.mem_append]
      exact Or.inr hy
    simp only [validateForestAux, List.mem_append] at hx
    rcases hx with hx | hx
    · exact validateElement_geomfree w h e _ _ hfe x hx
    · exact ih _ _ hfes x hx

/-- C2 (amended): re-validating a validated forest against the same
`(width, height)` leaves every element — in particular every bounding box —
unchanged (clamping of the coordinate values is idempotent), and the second
run produces zero geometry-order warnings provided the first run produced
none.  The unrestricted claim is refuted by `claim_C2_counterexample`: a box
that is still order-inverted after clamping is warned about again on every
run. -/
theorem claim_C2_amended_revalidation (els : List Element) (w h : Int) :
    (validateForest (validateForest els w h).1 w h).1 =
      (validateForest els w h).1 ∧
    ((validateForest els w h).2.filter Warning.isOrder = [] →
      (validateForest (validateForest els w h).1 w h).2.filter
        Warning.isOrder = []) := by
  constructor
  · exact validateForestAux_fix w h els 0 0
  · intro hfree
    rw [List.filter_eq_nil_iff] at hfree ⊢
    intro x hx
    have := validateForestAux_geomfree w h els 0 0
      (by intro y hy; simpa using hfree y hy) x hx
    simp [this]

/-- Counterexample to C2 as stated: the spec's own example box
`(y_min=500, x_min=10, y_max=10, x_max=500)` against a 100x100 image clamps
to the still order-inverted `[100, 10, 10, 100]`, so the second validation
run records a further geometry-order warning instead of zero. -/
theorem claim_C2_counterexample :
    ¬ ((validateForest (validateForest [elOrderBad] 100 100).1 100 100).2.filter
        Warning.isOrder = []) := by decide

/-- Witness for the amended C2 on a well-ordered five-node forest: the
boxes are unchanged and the second run is free of geometry-order warnings. -/
theorem claim_C2_witness :
    (validateForest (validateForest forestGood 100 100).1 100 100).1 =
      (validateForest forestGood 100 100).1 ∧
    (validateForest (validateForest forestGood 100 100).1 100 100).2.filter
      Warning.isOrder = [] :=
  ⟨(claim_C2_amended_revalidation forestGood 100 100).1,
   (claim_C2_amended_revalidation forestGood 100 100).2 (by decide)⟩

/-- C8 (amended): the label is anchored at the box's top-left corner plus a
2px margin and shifted left/up on right/bottom overflow; the resulting label
rectangle (background plus padding) lies fully within
`[0, width] x [0, height]` PROVIDED the node's top-left corner is in-bounds
(as validation guarantees) and the measured text fits the image with its
margins (`text_width + 6 ≤ width` and `text_height + 6 ≤ height`).  The
unrestricted claim is refuted by `claim_C8_counterexample`: for text wider
than the image the shift pushes the rectangle past the left edge. -/
theorem claim_C8_amended_label_in_bounds (W H : Int)
    (tb : String → Int × Int × Int × Int) (i : Nat) (role name : String)
    (y0 x0 y1 x1 : Int) (children : List Element) (s : String)
    (hx : 0 ≤ x0) (hy : 0 ≤ y0)
    (htw : ((tb s).2.2.1 - (tb s).1) + 6 ≤ W)
    (hth : ((tb s).2.2.2 - (tb s).2.1) + 6 ≤ H) :
    ∀ cmd ∈ drawElement W H tb i
        (.mk role name [y0, x0, y1, x1] children (some s)),
      ∀ a b c d col, cmd = DrawCmd.labelBg a b c d col →
        0 ≤ a ∧ 0 ≤ b ∧ c ≤ W ∧ d ≤ H := by
  intro cmd hcmd a b c d col hEq
  subst hEq
  simp only [drawElement, Element.bounding_box, Element.ref, Option.getD,
    List.mem_cons, List.not_mem_nil, or_false] at hcmd
  simp only [labelPos] at hcmd
  rcases hcmd with hcmd | hcmd | hcmd | hcmd
  · simp at hcmd
  · simp at hcmd
  · simp only [DrawCmd.labelBg.injEq] at hcmd
    obtain ⟨ha, hb, hc, hd, -⟩ := hcmd
    subst ha hb hc hd
    refine ⟨?_, ?_, ?_, ?_⟩ <;> split_ifs <;> omega
  · simp at hcmd

/-- Counterexample to C8 as stated: on a 10x10 image, a node with the valid
clamped box `[0, 0, 5, 5]` whose label text measures 20x5 px gets its label
background drawn at x = -16, outside `[0, width]` — the overflow shift moves
the label past the left edge instead of keeping it on-canvas. -/
theorem claim_C8_counterexample :
    DrawCmd.labelBg (-16) (-1) 8 8 ⟨230, 159, 0⟩ ∈
      drawElement 10 10 tbWide 0 elSmallBox ∧ ¬ (0 ≤ (-16 : Int)) :=
  ⟨by decide, by decide⟩

/-- Witness for the amended C8: a 10x5 px label on a 100x100 image for the
box `[0, 0, 5, 5]` yields the in-bounds label rectangle `(0, 0, 14, 9)`. -/
theorem claim_C8_witness :
    0 ≤ (0 : Int) ∧ 0 ≤ (0 : Int) ∧ (14 : Int) ≤ 100 ∧ (9 : Int) ≤ 100 :=
  claim_C8_amended_label_in_bounds 100 100 tbSmall 0 "button" "b" 0 0 5 5 []
    "v1" (by norm_num) (by norm_num) (by decide) (by decide)
    (DrawCmd.labelBg 0 0 14 9 (colorOf 0)) (by decide) 0 0 14 9 (colorOf 0) rfl

end Playwright
